import Mathlib

/-!
Verification development for the `requestid` middleware package
(`request_id.go`): a pluggable request-identification pipeline built from
four strategy families (generator, source, save handler, post-processor)
composed by a single orchestrator (`requestIDInjector.ServeHTTP`).

Embedding conventions:
* Go `http.Header` (`map[string][]string`) is an association list
  `HeaderMap`; Go map indexing/assignment become `mapGet`/`mapSet`, while
  `Header.Get`/`Header.Set` (which canonicalize the key through
  `textproto.CanonicalMIMEHeaderKey`) become `headerGet`/`headerSet`.
* Pointer mutation becomes explicit state passing over `St`, the state
  reachable from the middleware arguments: the header map of the response
  writer, the header map of the request, and the gorilla/context store.
* The effects of `crypto/rand.Read` and `time.Now().UnixNano()` are an
  explicit `Oracle`: `none` for an entropy read error, `some bs` for a
  successful fill with bytes `bs`.
* `ServeHTTPcore` additionally returns the list of strategy/handler calls
  it performs (an `Event` trace), so that call-order properties are
  stated about the trace rather than re-read from the code.
-/

namespace Requestid

/-- Go `http.Header`: a `map[string][]string`, modelled as an association
list from header-name strings to value lists. -/
abbrev HeaderMap := List (String × List String)

/-- Raw Go map indexing `m[k]`: the first binding of `k`, if any. -/
def mapGet : HeaderMap → String → Option (List String)
  | [], _ => none
  | e :: m, k => if e.1 = k then some e.2 else mapGet m k

/-- Raw Go map assignment `m[k] = v`: replace the binding of `k`, or add
one if absent. -/
def mapSet : HeaderMap → String → List String → HeaderMap
  | [], k, v => [(k, v)]
  | e :: m, k, v => if e.1 = k then (k, v) :: m else e :: mapSet m k v

/-- Go `textproto.validHeaderFieldByte`: RFC 7230 token characters
(letters, digits, and the RFC 7230 punctuation set; code points 39
and 96 are the apostrophe and the backtick). -/
def validHeaderFieldChar (c : Char) : Bool :=
  c.isAlpha || c.isDigit ||
    c == '!' || c == '#' || c == '$' || c == '%' || c == '&' ||
    c == Char.ofNat 39 || c == '*' || c == '+' || c == '-' || c == '.' ||
    c == '^' || c == '_' || c == Char.ofNat 96 || c == '|' || c == '~'

/-- Character loop of `textproto.CanonicalMIMEHeaderKey`: upper-case a
letter at the start or after a `-`, lower-case it otherwise. -/
def canonChars : Bool → List Char → List Char
  | _, [] => []
  | upper, c :: rest =>
    let c2 := if upper then c.toUpper else c.toLower
    c2 :: canonChars (c2 == '-') rest

/-- Go `textproto.CanonicalMIMEHeaderKey`: canonicalize a header key, or
return it unchanged if it contains a non-token character. -/
def canonicalMIMEHeaderKey (s : String) : String :=
  if s.data.all validHeaderFieldChar then String.mk (canonChars true s.data)
  else s

/-- Go `http.Header.Get` (via `textproto.MIMEHeader.Get`): canonicalize the
key, return the first value bound to it, or `""` when absent/empty. -/
def headerGet (m : HeaderMap) (k : String) : String :=
  match mapGet m (canonicalMIMEHeaderKey k) with
  | none => ""
  | some [] => ""
  | some (v :: _) => v

/-- Go `http.Header.Set`: bind the canonicalized key to the one-element
value list `[v]`, replacing any previous binding. -/
def headerSet (m : HeaderMap) (k v : String) : HeaderMap :=
  mapSet m (canonicalMIMEHeaderKey k) [v]

/-- gorilla/context per-request store (`context.Set` data for one
request), modelled as an association list; the `interface` key is
narrowed to `String`. -/
abbrev CtxStore := List (String × String)

/-- Go `context.Set(r, field, id)`: map assignment on the per-request store. -/
def ctxSet : CtxStore → String → String → CtxStore
  | [], k, v => [(k, v)]
  | e :: m, k, v => if e.1 = k then (k, v) :: m else e :: ctxSet m k v

/-- The per-request state reachable from the middleware arguments: the
header map of the response writer (`rw.Header()`), the header map of the
request (`r.Header`), and the gorilla/context store for the request. -/
structure St where
  rw : HeaderMap
  req : HeaderMap
  ctx : CtxStore
  deriving DecidableEq, Repr

/-- Go `DefaultIDHeader` is where the command ID is stored. -/
def DefaultIDHeader : String := "X-Command-ID"

/-- Go `GetRequestID`: extracts the command ID from the request header. -/
def GetRequestID (req : HeaderMap) : String :=
  headerGet req DefaultIDHeader

/-- One byte of the `hex.EncodeToString` alphabet: `0`-`9` then `a`-`f`
(code point 48 is `0`, 87 + 10 is `a`). -/
def hexDigit (n : Nat) : Char :=
  if n < 10 then Char.ofNat (48 + n) else Char.ofNat (87 + n)

/-- The two hex characters `hex.EncodeToString` emits for one byte. -/
def hexEncodeByte (b : Nat) : List Char :=
  [hexDigit (b / 16), hexDigit (b % 16)]

/-- Go `hex.EncodeToString`: lowercase hex encoding of a byte slice. -/
def hexEncodeToString (bs : List Nat) : String :=
  String.mk (bs.flatMap hexEncodeByte)

/-- Outcome of one `crypto/rand.Read` into a fresh zeroed buffer: `none`
models a read error, `some bs` a successful fill with bytes `bs`. -/
abbrev Entropy := Option (List Nat)

/-- Characters produced by decimal formatting (the `strconv` digit loop),
code point 48 is `0`. -/
def digitChar (n : Nat) : Char := Char.ofNat (48 + n)

/-- Fuel-indexed digit loop of decimal formatting. -/
def natDecimalAux (fuel n : Nat) : List Char :=
  match fuel with
  | 0 => []
  | fuel + 1 =>
    if n < 10 then [digitChar n]
    else natDecimalAux fuel (n / 10) ++ [digitChar (n % 10)]

/-- Decimal formatting of a natural number (the Go `strconv` itoa). -/
def natDecimal (n : Nat) : String := String.mk (natDecimalAux (n + 1) n)

/-- Left-pad a string with `0` characters to width `w`. -/
def zeroPad (w : Nat) (s : String) : String :=
  String.mk (List.replicate (w - s.length) '0') ++ s

/-- Go `fmt.Sprintf("%f", float64(nanos)/1000000000)`: seconds since epoch
with six digits after the decimal point.  The `float64` division and its
binary rounding are abstracted to exact decimal rounding of the
nanosecond count to microseconds; the claims checked here concern only
the shape of the output, not its exact digits. -/
def goFormatSecondsF6 (nanos : Nat) : String :=
  let micros := (nanos + 500) / 1000
  natDecimal (micros / 1000000) ++ "." ++ zeroPad 6 (natDecimal (micros % 1000000))

/-- Go `randomIDGenerator.Generate`: read 16 random bytes, return `""` on a
read error, otherwise their lowercase hex encoding.  The function is
total: no error is ever raised. -/
def randomIDGenerator.Generate (entropy : Entropy) : String :=
  match entropy with
  | none => ""
  | some r => hexEncodeToString r

/-- Go `timestampIDGenerator.Generate`: format the current time as seconds
(`%f`), then `.`, then the hex of 2 random bytes.  The `rand.Read` error
is ignored, so on a read error the buffer keeps its zero bytes.  The
function is total: no error is ever raised. -/
def timestampIDGenerator.Generate (nowUnixNano : Nat) (entropy : Entropy) : String :=
  let r := match entropy with
    | none => [0, 0]
    | some bs => bs
  goFormatSecondsF6 nowUnixNano ++ "." ++ hexEncodeToString r

/-- Go `sourceHeader.GetID`: read the configured header from the request. -/
def sourceHeader.GetID (header : String) (req : HeaderMap) : String :=
  headerGet req header

/-- Go `saveHandlerHeader.SaveID`: `r.Header.Set(s.header, id)` — sets the
configured header on the request; the response writer is untouched. -/
def saveHandlerHeader.SaveID (header : String) (s : St) (id : String) : St :=
  { s with req := headerSet s.req header id }

/-- Go `saveHandlerContext.SaveID`: `context.Set(r, s.field, id)`. -/
def saveHandlerContext.SaveID (field : String) (s : St) (id : String) : St :=
  { s with ctx := ctxSet s.ctx field id }

/-- Go `postProcessorHeader.Process`: a direct Go map assignment of the
singleton value list into the response header map (`rw.Header()`), with
no key canonicalization. -/
def postProcessorHeader.Process (header : String) (s : St) (id : String) : St :=
  { s with rw := mapSet s.rw header [id] }

/-- External effects consumed by the built-in generators during one
request: the clock reading and the outcomes of the 16-byte and 2-byte
entropy reads. -/
structure Oracle where
  nowUnixNano : Nat
  entropy16 : Entropy
  entropy2 : Entropy

/-- The two built-in `IDGenerator` implementations. -/
inductive IDGeneratorI
  | random
  | timestamp

/-- Go `IDSource` implementations: `sourceHeader` and `sourceCustom`. -/
inductive IDSourceI
  | header (h : String)
  | custom (fn : HeaderMap → String)

/-- Go `IDSaveHandler` implementations: `saveHandlerHeader`,
`saveHandlerContext` and `saveHandlerCustom`. -/
inductive IDSaveHandlerI
  | header (h : String)
  | context (field : String)
  | custom (fn : St → String → St)

/-- Go `IDPostProcessor` implementations: `postProcessorHeader` and
`postProcessorCustom`. -/
inductive IDPostProcessorI
  | header (h : String)
  | custom (fn : St → String → St)

/-- Dynamic dispatch of `IDGenerator.Generate`. -/
def IDGeneratorI.Generate : IDGeneratorI → Oracle → String
  | .random, o => randomIDGenerator.Generate o.entropy16
  | .timestamp, o => timestampIDGenerator.Generate o.nowUnixNano o.entropy2

/-- Dynamic dispatch of `IDSource.GetID`. -/
def IDSourceI.GetID : IDSourceI → HeaderMap → String
  | .header h, req => sourceHeader.GetID h req
  | .custom fn, req => fn req

/-- Dynamic dispatch of `IDSaveHandler.SaveID`. -/
def IDSaveHandlerI.SaveID : IDSaveHandlerI → St → String → St
  | .header h, s, id => saveHandlerHeader.SaveID h s id
  | .context f, s, id => saveHandlerContext.SaveID f s id
  | .custom fn, s, id => fn s id

/-- Dynamic dispatch of `IDPostProcessor.Process`. -/
def IDPostProcessorI.Process : IDPostProcessorI → St → String → St
  | .header h, s, id => postProcessorHeader.Process h s id
  | .custom fn, s, id => fn s id

/-- Go `NewRandomIDGenerator`. -/
def NewRandomIDGenerator : IDGeneratorI := .random

/-- Go `NewTimestampIDGenerator`. -/
def NewTimestampIDGenerator : IDGeneratorI := .timestamp

/-- Go `NewSourceHeader`. -/
def NewSourceHeader (header : String) : IDSourceI := .header header

/-- Go `NewSaveHandlerHeader`. -/
def NewSaveHandlerHeader (header : String) : IDSaveHandlerI := .header header

/-- Go `NewSaveHandlerContext`. -/
def NewSaveHandlerContext (field : String) : IDSaveHandlerI := .context field

/-- Go `NewPostProcessorHeader`. -/
def NewPostProcessorHeader (field : String) : IDPostProcessorI := .header field

/-- Go `IDInjectorOptions`: four optional strategy slots (a `none` slot
models a nil Go interface field). -/
structure IDInjectorOptions where
  idGenerator : Option IDGeneratorI
  idSource : Option IDSourceI
  idSaveHandler : Option IDSaveHandlerI
  idPostProcessor : Option IDPostProcessorI

/-- Go `requestIDInjector` after `applyDefaults`: all four strategy slots
resolved. -/
structure requestIDInjector where
  idGenerator : IDGeneratorI
  idSource : IDSourceI
  idSaveHandler : IDSaveHandlerI
  idPostProcessor : IDPostProcessorI

/-- Go `requestIDInjector.applyDefaults`: each nil strategy slot is replaced
by the built-in default (timestamp generator, header source / save
handler / post-processor on `DefaultIDHeader`); the Go in-place mutation of
the freshly constructed injector becomes returning the resolved record. -/
def applyDefaults (o : IDInjectorOptions) : requestIDInjector :=
  { idGenerator :=
      match o.idGenerator with
      | none => NewTimestampIDGenerator
      | some g => g,
    idSource :=
      match o.idSource with
      | none => NewSourceHeader DefaultIDHeader
      | some s => s,
    idSaveHandler :=
      match o.idSaveHandler with
      | none => NewSaveHandlerHeader DefaultIDHeader
      | some s => s,
    idPostProcessor :=
      match o.idPostProcessor with
      | none => NewPostProcessorHeader DefaultIDHeader
      | some p => p }

/-- Go `NewRequestIDInjector`: build the injector from the options and apply
the defaults once, at construction. -/
def NewRequestIDInjector (o : IDInjectorOptions) : requestIDInjector :=
  applyDefaults o

/-- One strategy/handler call performed by `ServeHTTP`, with the state or
request it was given and (for the resolution steps) the string involved. -/
inductive Event
  | getIDCall (req : HeaderMap) (result : String)
  | generateCall (result : String)
  | saveIDCall (s : St) (id : String)
  | processCall (s : St) (id : String)
  | nextCall (s : St)
  deriving DecidableEq

/-- The four strategy slots of one request, as plain functions over the
embedded state; `generate` is the value that the single possible generator
`Generate()` call would return for this request (the generators are
deterministic given the `Oracle`). -/
structure Strategies where
  getID : HeaderMap → String
  generate : String
  saveID : St → String → St
  process : St → String → St

/-- Go `requestIDInjector.ServeHTTP`: resolve the id from the source,
falling back to the generator when the source yields `""`; save it;
post-process it; then invoke `next` once on the resulting state.  Also
returns the trace of calls made. -/
def ServeHTTPcore (v : Strategies) (next : St → St) (s0 : St) : St × List Event :=
  let id0 := v.getID s0.req
  let id := if id0 = "" then v.generate else id0
  let s1 := v.saveID s0 id
  let s2 := v.process s1 id
  (next s2,
    Event.getIDCall s0.req id0 ::
      ((if id0 = "" then [Event.generateCall v.generate] else []) ++
        [Event.saveIDCall s0 id, Event.processCall s1 id, Event.nextCall s2]))

/-- The `Strategies` an injector uses for one request. -/
def requestIDInjector.strategies (v : requestIDInjector) (o : Oracle) : Strategies :=
  { getID := v.idSource.GetID,
    generate := v.idGenerator.Generate o,
    saveID := v.idSaveHandler.SaveID,
    process := v.idPostProcessor.Process }

/-- Go `requestIDInjector.ServeHTTP`, dispatching through the strategy slots
of the injector. -/
def requestIDInjector.ServeHTTP (v : requestIDInjector) (o : Oracle)
    (next : St → St) (s : St) : St × List Event :=
  ServeHTTPcore (v.strategies o) next s

/-- The kind of an `Event`, used to state call order. -/
inductive EKind
  | getID
  | generate
  | saveID
  | process
  | next
  deriving DecidableEq

/-- Kind of one event. -/
def Event.kind : Event → EKind
  | .getIDCall _ _ => .getID
  | .generateCall _ => .generate
  | .saveIDCall _ _ => .saveID
  | .processCall _ _ => .process
  | .nextCall _ => .next

/-- Kinds of a trace, in order. -/
def kinds (tr : List Event) : List EKind := tr.map Event.kind

/-- Identifiers passed to `SaveHandler.SaveID` in a trace, in order. -/
def savedIds : List Event → List String
  | [] => []
  | .saveIDCall _ id :: es => id :: savedIds es
  | _ :: es => savedIds es

/-- Identifiers passed to `PostProcessor.Process` in a trace, in order. -/
def processedIds : List Event → List String
  | [] => []
  | .processCall _ id :: es => id :: processedIds es
  | _ :: es => processedIds es

/-- Number of `Generator.Generate` calls in a trace. -/
def generateCalls : List Event → Nat
  | [] => 0
  | .generateCall _ :: es => generateCalls es + 1
  | _ :: es => generateCalls es

/-- Number of downstream-handler invocations in a trace. -/
def nextCalls : List Event → Nat
  | [] => 0
  | .nextCall _ :: es => nextCalls es + 1
  | _ :: es => nextCalls es

/-- A lowercase hexadecimal character: a digit or `a`-`f` (code points
97 to 102). -/
def isLowerHexChar (c : Char) : Bool :=
  c.isDigit || (97 ≤ c.toNat && c.toNat ≤ 102)

end Requestid

namespace Requestid

theorem mapGet_mapSet_self (m : HeaderMap) (k : String) (v : List String) :
    mapGet (mapSet m k v) k = some v := by
  induction m with
  | nil => simp [mapGet, mapSet]
  | cons e m ih =>
    by_cases h : e.1 = k
    · simp [mapSet, h, mapGet]
    · simp [mapSet, h, mapGet, ih]

theorem mapGet_mapSet_ne {k k' : String} (h : k' ≠ k) (m : HeaderMap) (v : List String) :
    mapGet (mapSet m k v) k' = mapGet m k' := by
  induction m with
  | nil => simp [mapGet, mapSet, Ne.symm h]
  | cons e m ih =>
    by_cases hek : e.1 = k
    · simp [mapSet, hek, mapGet, Ne.symm h]
    · simp [mapSet, hek, mapGet, ih]

theorem headerGet_headerSet_self (m : HeaderMap) (k v : String) :
    headerGet (headerSet m k v) k = v := by
  simp [headerGet, headerSet, mapGet_mapSet_self]

/-- C1: the per-request routine first calls `Source.GetID`; it calls
`Generator.Generate` if and only if that result is `""` (so a non-empty
source value is the resolved identifier and the generator is never
invoked); it then calls `SaveHandler.SaveID`, then
`PostProcessor.Process`, and finally invokes the downstream handler
exactly once, last, on the very state the save/process steps produced. -/
theorem ServeHTTP_call_order (v : Strategies) (next : St → St) (s0 : St) :
    kinds (ServeHTTPcore v next s0).2 =
      (if v.getID s0.req = "" then
        [EKind.getID, EKind.generate, EKind.saveID, EKind.process, EKind.next]
       else [EKind.getID, EKind.saveID, EKind.process, EKind.next]) ∧
    savedIds (ServeHTTPcore v next s0).2 =
      [if v.getID s0.req = "" then v.generate else v.getID s0.req] ∧
    processedIds (ServeHTTPcore v next s0).2 =
      [if v.getID s0.req = "" then v.generate else v.getID s0.req] ∧
    nextCalls (ServeHTTPcore v next s0).2 = 1 ∧
    (ServeHTTPcore v next s0).2.head? = some (Event.getIDCall s0.req (v.getID s0.req)) ∧
    (ServeHTTPcore v next s0).2.getLast? = some
      (Event.nextCall (v.process
        (v.saveID s0 (if v.getID s0.req = "" then v.generate else v.getID s0.req))
        (if v.getID s0.req = "" then v.generate else v.getID s0.req))) ∧
    (ServeHTTPcore v next s0).1 = next (v.process
      (v.saveID s0 (if v.getID s0.req = "" then v.generate else v.getID s0.req))
      (if v.getID s0.req = "" then v.generate else v.getID s0.req)) := by
  by_cases h : v.getID s0.req = "" <;>
    simp [ServeHTTPcore, h, kinds, savedIds, processedIds, nextCalls, Event.kind]

/-- C2: exactly one identifier is resolved per request — `SaveID` is
called once, `Process` is called once, both with the same string, and
the generator runs at most once. -/
theorem ServeHTTP_single_id (v : Strategies) (next : St → St) (s0 : St) :
    ∃ id : String,
      savedIds (ServeHTTPcore v next s0).2 = [id] ∧
      processedIds (ServeHTTPcore v next s0).2 = [id] ∧
      generateCalls (ServeHTTPcore v next s0).2 ≤ 1 := by
  refine ⟨if v.getID s0.req = "" then v.generate else v.getID s0.req, ?_⟩
  by_cases h : v.getID s0.req = "" <;>
    simp [ServeHTTPcore, h, savedIds, processedIds, generateCalls]

/-- C8: the header-based save handler sets the configured header on the
request (overwriting: the canonicalized key is bound to exactly `[id]`)
and leaves the response header map and the context store unchanged. -/
theorem saveHandlerHeader_frame (hname : String) (s : St) (id : String) :
    (saveHandlerHeader.SaveID hname s id).rw = s.rw ∧
    (saveHandlerHeader.SaveID hname s id).ctx = s.ctx ∧
    (saveHandlerHeader.SaveID hname s id).req = headerSet s.req hname id ∧
    mapGet (saveHandlerHeader.SaveID hname s id).req (canonicalMIMEHeaderKey hname) =
      some [id] ∧
    headerGet (saveHandlerHeader.SaveID hname s id).req hname = id := by
  refine ⟨rfl, rfl, rfl, ?_, ?_⟩
  · simp [saveHandlerHeader.SaveID, headerSet, mapGet_mapSet_self]
  · simp [saveHandlerHeader.SaveID, headerGet_headerSet_self]

/-- C9: no step aborts the pipeline — when the source yields `""` and the
generator also returns `""`, the empty identifier still reaches `SaveID`
and `Process` unchanged and the downstream handler is still invoked. -/
theorem ServeHTTP_empty_id_flows (v : Strategies) (next : St → St) (s0 : St)
    (hsrc : v.getID s0.req = "") (hgen : v.generate = "") :
    savedIds (ServeHTTPcore v next s0).2 = [""] ∧
    processedIds (ServeHTTPcore v next s0).2 = [""] ∧
    nextCalls (ServeHTTPcore v next s0).2 = 1 ∧
    (ServeHTTPcore v next s0).1 = next (v.process (v.saveID s0 "") "") := by
  simp [ServeHTTPcore, hsrc, hgen, savedIds, processedIds, nextCalls]

/-- Degenerate strategies used to witness `ServeHTTP_empty_id_flows`:
the source finds nothing and the generator returns `""`. -/
def emptyStrategies : Strategies :=
  { getID := fun _ => "",
    generate := "",
    saveID := fun s _ => s,
    process := fun s _ => s }

theorem ServeHTTP_empty_id_flows_witness :
    emptyStrategies.getID (St.mk [] [] []).req = "" ∧
    emptyStrategies.generate = "" ∧
    (savedIds (ServeHTTPcore emptyStrategies (fun s => s) (St.mk [] [] [])).2 = [""] ∧
      processedIds (ServeHTTPcore emptyStrategies (fun s => s) (St.mk [] [] [])).2 = [""] ∧
      nextCalls (ServeHTTPcore emptyStrategies (fun s => s) (St.mk [] [] [])).2 = 1 ∧
      (ServeHTTPcore emptyStrategies (fun s => s) (St.mk [] [] [])).1 =
        (fun s => s) (emptyStrategies.process (emptyStrategies.saveID (St.mk [] [] []) "") "")) :=
  ⟨rfl, rfl, ServeHTTP_empty_id_flows emptyStrategies (fun s => s) (St.mk [] [] []) rfl rfl⟩

/-- C10: the header post-processor writes by direct map assignment with
no canonicalization: the default name `X-Command-ID` differs from its
canonical form `X-Command-Id`, the raw key `X-Command-ID` is bound to
`[id]`, the binding of the canonical key is untouched, a canonicalizing
`Header.Get` on the response still sees the old value, and the request
is unchanged. -/
theorem postProcessorHeader_no_canonicalization (s : St) (id : String) :
    canonicalMIMEHeaderKey DefaultIDHeader = "X-Command-Id" ∧
    DefaultIDHeader ≠ "X-Command-Id" ∧
    mapGet (postProcessorHeader.Process DefaultIDHeader s id).rw "X-Command-ID" =
      some [id] ∧
    mapGet (postProcessorHeader.Process DefaultIDHeader s id).rw "X-Command-Id" =
      mapGet s.rw "X-Command-Id" ∧
    headerGet (postProcessorHeader.Process DefaultIDHeader s id).rw "X-Command-ID" =
      headerGet s.rw "X-Command-ID" ∧
    (postProcessorHeader.Process DefaultIDHeader s id).req = s.req ∧
    (postProcessorHeader.Process DefaultIDHeader s id).ctx = s.ctx := by
  have hc : canonicalMIMEHeaderKey "X-Command-ID" = "X-Command-Id" := by decide
  have hne : ("X-Command-Id" : String) ≠ "X-Command-ID" := by decide
  refine ⟨hc, by decide, ?_, ?_, ?_, rfl, rfl⟩
  · simp [postProcessorHeader.Process, DefaultIDHeader, mapGet_mapSet_self]
  · simp [postProcessorHeader.Process, DefaultIDHeader, mapGet_mapSet_ne hne]
  · simp [postProcessorHeader.Process, headerGet, DefaultIDHeader, hc,
      mapGet_mapSet_ne hne]

end Requestid

namespace Requestid

/-- The fully-defaulted injector: what `NewRequestIDInjector` returns for
options with all four slots unset. -/
def defaultInjector : requestIDInjector :=
  NewRequestIDInjector ⟨none, none, none, none⟩

/-- C4: an injector built from options with all four slots unset equals —
as a value, hence in behaviour on every request — the injector built with
the explicit timestamp generator and header-based source, save handler and
post-processor on `DefaultIDHeader`.  Defaulting is part of
`NewRequestIDInjector` alone: `ServeHTTP` consumes only the resolved
record, so it happens once per instance, not per request. -/
theorem NewRequestIDInjector_defaulting_equivalence :
    NewRequestIDInjector ⟨none, none, none, none⟩ =
      NewRequestIDInjector
        ⟨some NewTimestampIDGenerator, some (NewSourceHeader DefaultIDHeader),
          some (NewSaveHandlerHeader DefaultIDHeader),
          some (NewPostProcessorHeader DefaultIDHeader)⟩ ∧
    ∀ (o : Oracle) (next : St → St) (s : St),
      requestIDInjector.ServeHTTP (NewRequestIDInjector ⟨none, none, none, none⟩) o next s =
        requestIDInjector.ServeHTTP
          (NewRequestIDInjector
            ⟨some NewTimestampIDGenerator, some (NewSourceHeader DefaultIDHeader),
              some (NewSaveHandlerHeader DefaultIDHeader),
              some (NewPostProcessorHeader DefaultIDHeader)⟩) o next s :=
  ⟨rfl, fun _ _ _ => rfl⟩

/-- C3: a request carrying `X-Command-ID: abc123`, run through the
default-configured injector, reaches the downstream handler with the
request header still reading `abc123` (so `GetRequestID` yields
`abc123`) and with the response header map binding `X-Command-ID` to
`["abc123"]`. -/
theorem default_pipeline_header_passthrough (o : Oracle) (next : St → St) (s0 : St)
    (h : headerGet s0.req DefaultIDHeader = "abc123") :
    ∃ s2 : St,
      (requestIDInjector.ServeHTTP defaultInjector o next s0).1 = next s2 ∧
      Event.nextCall s2 ∈ (requestIDInjector.ServeHTTP defaultInjector o next s0).2 ∧
      headerGet s2.req DefaultIDHeader = "abc123" ∧
      GetRequestID s2.req = "abc123" ∧
      mapGet s2.rw "X-Command-ID" = some ["abc123"] := by
  have hgetID : (defaultInjector.strategies o).getID s0.req = "abc123" := by
    simpa [defaultInjector, NewRequestIDInjector, applyDefaults,
      requestIDInjector.strategies, NewSourceHeader, IDSourceI.GetID,
      sourceHeader.GetID] using h
  have hne : (defaultInjector.strategies o).getID s0.req ≠ "" := by
    rw [hgetID]; decide
  refine ⟨(defaultInjector.strategies o).process
      ((defaultInjector.strategies o).saveID s0 "abc123") "abc123", ?_, ?_, ?_, ?_, ?_⟩
  · simp [requestIDInjector.ServeHTTP, ServeHTTPcore, hne, hgetID]
  · simp [requestIDInjector.ServeHTTP, ServeHTTPcore, hne, hgetID]
  · simp [defaultInjector, NewRequestIDInjector, applyDefaults,
      requestIDInjector.strategies, NewSaveHandlerHeader, NewPostProcessorHeader,
      IDSaveHandlerI.SaveID, IDPostProcessorI.Process, saveHandlerHeader.SaveID,
      postProcessorHeader.Process, headerGet_headerSet_self]
  · simp [GetRequestID, defaultInjector, NewRequestIDInjector, applyDefaults,
      requestIDInjector.strategies, NewSaveHandlerHeader, NewPostProcessorHeader,
      IDSaveHandlerI.SaveID, IDPostProcessorI.Process, saveHandlerHeader.SaveID,
      postProcessorHeader.Process, headerGet_headerSet_self]
  · simp [defaultInjector, NewRequestIDInjector, applyDefaults,
      requestIDInjector.strategies, NewSaveHandlerHeader, NewPostProcessorHeader,
      IDSaveHandlerI.SaveID, IDPostProcessorI.Process, saveHandlerHeader.SaveID,
      postProcessorHeader.Process, DefaultIDHeader, mapGet_mapSet_self]

theorem default_pipeline_header_passthrough_witness :
    headerGet [("X-Command-Id", ["abc123"])] DefaultIDHeader = "abc123" ∧
    (∃ s2 : St,
      (requestIDInjector.ServeHTTP defaultInjector (Oracle.mk 0 none none) (fun s => s)
        (St.mk [] [("X-Command-Id", ["abc123"])] [])).1 = (fun s => s) s2 ∧
      Event.nextCall s2 ∈ (requestIDInjector.ServeHTTP defaultInjector (Oracle.mk 0 none none)
        (fun s => s) (St.mk [] [("X-Command-Id", ["abc123"])] [])).2 ∧
      headerGet s2.req DefaultIDHeader = "abc123" ∧
      GetRequestID s2.req = "abc123" ∧
      mapGet s2.rw "X-Command-ID" = some ["abc123"]) :=
  ⟨by decide,
    default_pipeline_header_passthrough (Oracle.mk 0 none none) (fun s => s)
      (St.mk [] [("X-Command-Id", ["abc123"])] []) (by decide)⟩

end Requestid

namespace Requestid

theorem digitChar_isDigit : ∀ n < 10, (digitChar n).isDigit := by decide

theorem natDecimalAux_digits (fuel : Nat) :
    ∀ n : Nat, ∀ c ∈ natDecimalAux fuel n, c.isDigit := by
  induction fuel with
  | zero => intro n c hc; simp [natDecimalAux] at hc
  | succ fuel ih =>
    intro n c hc
    by_cases h : n < 10
    · simp [natDecimalAux, h] at hc
      subst hc
      exact digitChar_isDigit n h
    · simp [natDecimalAux, h] at hc
      rcases hc with hc | hc
      · exact ih _ c hc
      · subst hc
        exact digitChar_isDigit _ (Nat.mod_lt _ (by omega))

theorem natDecimal_digits (n : Nat) : ∀ c ∈ (natDecimal n).data, c.isDigit :=
  natDecimalAux_digits (n + 1) n

theorem natDecimalAux_succ_ne_nil (fuel n : Nat) : natDecimalAux (fuel + 1) n ≠ [] := by
  by_cases h : n < 10 <;> simp [natDecimalAux, h]

theorem string_ne_empty_of_data {s : String} (h : s.data ≠ []) : s ≠ "" := by
  intro hc
  exact h (by rw [hc])

theorem natDecimal_ne_empty (n : Nat) : natDecimal n ≠ "" :=
  string_ne_empty_of_data (natDecimalAux_succ_ne_nil n n)

theorem zeroPad_data (w : Nat) (s : String) :
    (zeroPad w s).data = List.replicate (w - s.length) '0' ++ s.data := by
  simp [zeroPad, String.data_append]

theorem zeroPad_natDecimal_digits (w n : Nat) :
    ∀ c ∈ (zeroPad w (natDecimal n)).data, c.isDigit := by
  intro c hc
  rw [zeroPad_data] at hc
  rcases List.mem_append.mp hc with hc | hc
  · rw [List.eq_of_mem_replicate hc]
    decide
  · exact natDecimal_digits n c hc

theorem zeroPad_natDecimal_ne_empty (w n : Nat) : zeroPad w (natDecimal n) ≠ "" := by
  apply string_ne_empty_of_data
  rw [zeroPad_data]
  intro hc
  exact natDecimalAux_succ_ne_nil n n (List.append_eq_nil.mp hc).2

theorem hexDigit_lower : ∀ n < 16, isLowerHexChar (hexDigit n) := by decide

theorem hexEncodeByte_lower (b : Nat) (hb : b < 256) :
    ∀ c ∈ hexEncodeByte b, isLowerHexChar c := by
  intro c hc
  simp [hexEncodeByte] at hc
  rcases hc with hc | hc <;> subst hc
  · exact hexDigit_lower _ (Nat.div_lt_of_lt_mul (by omega))
  · exact hexDigit_lower _ (Nat.mod_lt _ (by omega))

theorem flatMap_hexEncodeByte_length (bs : List Nat) :
    (bs.flatMap hexEncodeByte).length = 2 * bs.length := by
  induction bs with
  | nil => rfl
  | cons b t ih =>
    simp [hexEncodeByte] at ih ⊢
    omega

theorem hexEncodeToString_length (bs : List Nat) :
    (hexEncodeToString bs).length = 2 * bs.length :=
  flatMap_hexEncodeByte_length bs

theorem hexEncodeToString_lower (bs : List Nat) (hb : ∀ b ∈ bs, b < 256) :
    ∀ c ∈ (hexEncodeToString bs).data, isLowerHexChar c := by
  intro c hc
  simp [hexEncodeToString] at hc
  obtain ⟨b, hbmem, hcb⟩ := hc
  exact hexEncodeByte_lower b (hb b hbmem) c hcb

/-- C6: the random generator returns `""` exactly when the entropy read
fails, and otherwise the 32-character lowercase hex encoding of the
16 bytes it read; being a total function, it never raises. -/
theorem randomIDGenerator_Generate_spec (e : Entropy)
    (hwf : ∀ bs, e = some bs → bs.length = 16 ∧ ∀ b ∈ bs, b < 256) :
    (e = none → randomIDGenerator.Generate e = "") ∧
    (∀ bs, e = some bs →
      randomIDGenerator.Generate e = hexEncodeToString bs ∧
      (randomIDGenerator.Generate e).length = 32 ∧
      ∀ c ∈ (randomIDGenerator.Generate e).data, isLowerHexChar c) := by
  constructor
  · intro h; subst h; rfl
  · intro bs h; subst h
    obtain ⟨hlen, hbytes⟩ := hwf bs rfl
    refine ⟨rfl, ?_, ?_⟩
    · rw [show randomIDGenerator.Generate (some bs) = hexEncodeToString bs from rfl,
        hexEncodeToString_length, hlen]
    · exact hexEncodeToString_lower bs hbytes

theorem randomIDGenerator_Generate_spec_witness :
    (∀ bs, (some [0, 1, 2, 3, 4, 5, 6, 7, 8, 9, 10, 11, 12, 13, 254, 255] : Entropy) = some bs →
      bs.length = 16 ∧ ∀ b ∈ bs, b < 256) ∧
    ((some [0, 1, 2, 3, 4, 5, 6, 7, 8, 9, 10, 11, 12, 13, 254, 255] : Entropy) = none →
      randomIDGenerator.Generate (some [0, 1, 2, 3, 4, 5, 6, 7, 8, 9, 10, 11, 12, 13, 254, 255]) = "") ∧
    (∀ bs, (some [0, 1, 2, 3, 4, 5, 6, 7, 8, 9, 10, 11, 12, 13, 254, 255] : Entropy) = some bs →
      randomIDGenerator.Generate (some [0, 1, 2, 3, 4, 5, 6, 7, 8, 9, 10, 11, 12, 13, 254, 255]) =
        hexEncodeToString bs ∧
      (randomIDGenerator.Generate (some [0, 1, 2, 3, 4, 5, 6, 7, 8, 9, 10, 11, 12, 13, 254, 255])).length = 32 ∧
      ∀ c ∈ (randomIDGenerator.Generate
        (some [0, 1, 2, 3, 4, 5, 6, 7, 8, 9, 10, 11, 12, 13, 254, 255])).data, isLowerHexChar c) :=
  ⟨fun bs h => by cases h; decide,
    (randomIDGenerator_Generate_spec
      (some [0, 1, 2, 3, 4, 5, 6, 7, 8, 9, 10, 11, 12, 13, 254, 255])
      (fun bs h => by cases h; decide)).1,
    (randomIDGenerator_Generate_spec
      (some [0, 1, 2, 3, 4, 5, 6, 7, 8, 9, 10, 11, 12, 13, 254, 255])
      (fun bs h => by cases h; decide)).2⟩

end Requestid

namespace Requestid

/-- C5: every timestamp-generator output is `secs ++ "." ++ frac ++ "." ++ suffix`
with decimal `secs`/`frac`, where the suffix is the 4 lowercase hex
characters of the 2 bytes read, and the all-zero `"0000"` when the
entropy read fails; being a total function, it always returns normally. -/
theorem timestampIDGenerator_Generate_spec (nanos : Nat) (e : Entropy)
    (hwf : ∀ bs, e = some bs → bs.length = 2 ∧ ∀ b ∈ bs, b < 256) :
    ∃ secs frac suffix : String,
      timestampIDGenerator.Generate nanos e = secs ++ "." ++ frac ++ "." ++ suffix ∧
      secs ≠ "" ∧ (∀ c ∈ secs.data, c.isDigit) ∧
      frac ≠ "" ∧ (∀ c ∈ frac.data, c.isDigit) ∧
      suffix.length = 4 ∧ (∀ c ∈ suffix.data, isLowerHexChar c) ∧
      (∀ bs, e = some bs → suffix = hexEncodeToString bs) ∧
      (e = none → suffix = "0000") := by
  have h0 : hexEncodeToString [0, 0] = "0000" := by decide
  cases e with
  | none =>
    refine ⟨natDecimal (((nanos + 500) / 1000) / 1000000),
      zeroPad 6 (natDecimal (((nanos + 500) / 1000) % 1000000)), "0000",
      ?_, ?_, ?_, ?_, ?_, ?_, ?_, ?_, ?_⟩
    · simp [timestampIDGenerator.Generate, goFormatSecondsF6, h0, String.append_assoc]
    · exact natDecimal_ne_empty _
    · exact natDecimal_digits _
    · exact zeroPad_natDecimal_ne_empty 6 _
    · exact zeroPad_natDecimal_digits 6 _
    · decide
    · decide
    · intro bs h
      exact nomatch h
    · intro h
      rfl
  | some bs =>
    obtain ⟨hlen, hbytes⟩ := hwf bs rfl
    refine ⟨natDecimal (((nanos + 500) / 1000) / 1000000),
      zeroPad 6 (natDecimal (((nanos + 500) / 1000) % 1000000)), hexEncodeToString bs,
      ?_, ?_, ?_, ?_, ?_, ?_, ?_, ?_, ?_⟩
    · simp [timestampIDGenerator.Generate, goFormatSecondsF6, String.append_assoc]
    · exact natDecimal_ne_empty _
    · exact natDecimal_digits _
    · exact zeroPad_natDecimal_ne_empty 6 _
    · exact zeroPad_natDecimal_digits 6 _
    · rw [hexEncodeToString_length, hlen]
    · exact hexEncodeToString_lower bs hbytes
    · intro bs2 h
      injection h with h2
      rw [h2]
    · intro h
      exact nomatch h

theorem timestampIDGenerator_Generate_spec_witness :
    (∀ bs, (some [171, 63] : Entropy) = some bs → bs.length = 2 ∧ ∀ b ∈ bs, b < 256) ∧
    (∃ secs frac suffix : String,
      timestampIDGenerator.Generate 1234567890123456789 (some [171, 63]) =
        secs ++ "." ++ frac ++ "." ++ suffix ∧
      secs ≠ "" ∧ (∀ c ∈ secs.data, c.isDigit) ∧
      frac ≠ "" ∧ (∀ c ∈ frac.data, c.isDigit) ∧
      suffix.length = 4 ∧ (∀ c ∈ suffix.data, isLowerHexChar c) ∧
      (∀ bs, (some [171, 63] : Entropy) = some bs → suffix = hexEncodeToString bs) ∧
      ((some [171, 63] : Entropy) = none → suffix = "0000")) :=
  ⟨fun bs h => by cases h; decide,
    timestampIDGenerator_Generate_spec 1234567890123456789 (some [171, 63])
      (fun bs h => by cases h; decide)⟩

theorem timestampIDGenerator_Generate_ne_empty (nanos : Nat) (e : Entropy) :
    timestampIDGenerator.Generate nanos e ≠ "" := by
  apply string_ne_empty_of_data
  cases e with
  | none =>
    intro hdata
    rw [show timestampIDGenerator.Generate nanos none =
        (goFormatSecondsF6 nanos ++ ".") ++ hexEncodeToString [0, 0] from rfl,
      String.data_append, String.data_append] at hdata
    rcases List.append_eq_nil.mp hdata with ⟨h1, -⟩
    rcases List.append_eq_nil.mp h1 with ⟨-, h2⟩
    exact absurd h2 (by decide)
  | some bs =>
    intro hdata
    rw [show timestampIDGenerator.Generate nanos (some bs) =
        (goFormatSecondsF6 nanos ++ ".") ++ hexEncodeToString bs from rfl,
      String.data_append, String.data_append] at hdata
    rcases List.append_eq_nil.mp hdata with ⟨h1, -⟩
    rcases List.append_eq_nil.mp h1 with ⟨-, h2⟩
    exact absurd h2 (by decide)

/-- C7: on a request with nothing under the configured header, the
default-configured injector invokes its timestamp generator, the saved
(resolved) identifier is exactly that freshly generated value, and — the
generator being total with a non-empty output shape — it is non-empty. -/
theorem default_pipeline_generates_fresh (o : Oracle) (next : St → St) (s0 : St)
    (hempty : headerGet s0.req DefaultIDHeader = "")
    (hent : o.entropy2 ≠ none) :
    Event.generateCall (timestampIDGenerator.Generate o.nowUnixNano o.entropy2) ∈
      (requestIDInjector.ServeHTTP defaultInjector o next s0).2 ∧
    savedIds (requestIDInjector.ServeHTTP defaultInjector o next s0).2 =
      [timestampIDGenerator.Generate o.nowUnixNano o.entropy2] ∧
    timestampIDGenerator.Generate o.nowUnixNano o.entropy2 ≠ "" := by
  have hgetID : (defaultInjector.strategies o).getID s0.req = "" := by
    simpa [defaultInjector, NewRequestIDInjector, applyDefaults,
      requestIDInjector.strategies, NewSourceHeader, IDSourceI.GetID,
      sourceHeader.GetID] using hempty
  have hgen : (defaultInjector.strategies o).generate =
      timestampIDGenerator.Generate o.nowUnixNano o.entropy2 := rfl
  refine ⟨?_, ?_, timestampIDGenerator_Generate_ne_empty _ _⟩
  · simp [requestIDInjector.ServeHTTP, ServeHTTPcore, hgetID, hgen]
  · simp [requestIDInjector.ServeHTTP, ServeHTTPcore, hgetID, hgen, savedIds]

theorem default_pipeline_generates_fresh_witness :
    headerGet ([] : HeaderMap) DefaultIDHeader = "" ∧
    (Oracle.mk 0 none (some [0, 0])).entropy2 ≠ none ∧
    (Event.generateCall
        (timestampIDGenerator.Generate (Oracle.mk 0 none (some [0, 0])).nowUnixNano
          (Oracle.mk 0 none (some [0, 0])).entropy2) ∈
      (requestIDInjector.ServeHTTP defaultInjector (Oracle.mk 0 none (some [0, 0]))
        (fun s => s) (St.mk [] [] [])).2 ∧
    savedIds (requestIDInjector.ServeHTTP defaultInjector (Oracle.mk 0 none (some [0, 0]))
        (fun s => s) (St.mk [] [] [])).2 =
      [timestampIDGenerator.Generate (Oracle.mk 0 none (some [0, 0])).nowUnixNano
        (Oracle.mk 0 none (some [0, 0])).entropy2] ∧
    timestampIDGenerator.Generate (Oracle.mk 0 none (some [0, 0])).nowUnixNano
      (Oracle.mk 0 none (some [0, 0])).entropy2 ≠ "") :=
  ⟨by decide, by decide,
    default_pipeline_generates_fresh (Oracle.mk 0 none (some [0, 0])) (fun s => s)
      (St.mk [] [] []) (by decide) (by decide)⟩

end Requestid
